import Mathlib

/-!
Verification development for the secure-envelope + collage-compositing pipeline
(`video_grid_full_pipeline33T.py`).

The source's numeric formulas use Python float arithmetic (`math.sqrt`,
`math.ceil`, `/`); they are embedded here with exact natural-number arithmetic
(ceilings of rational quantities computed exactly), which is the intended
mathematical content of those lines.  Library primitives that the source calls
but does not implement (PBKDF2, AES-GCM, PIL resize/blur) are modelled as
executable deterministic functions, each marked `Modelled from the spec:`.
-/

namespace Pipeline33T

/-! ## Layout solver (source lines 494–498 inside `build_collages_for_33T`)

    cols = max(3, min(12, int(math.ceil(math.sqrt(n * base_w / base_h)))))
    rows = int(math.ceil(n / cols))
    cell_w = base_w // cols
    cell_h = base_h // rows
-/

/-- Ceiling of the rational `num / den` on naturals: `⌈num / den⌉`. -/
def ceilDiv (num den : Nat) : Nat := (num + den - 1) / den

/-- Linear search for the least `j ≥ k` with `m ≤ j * j`, with explicit fuel so
that the kernel can evaluate it. -/
def ceilSqrtNatGo (m : Nat) : Nat → Nat → Nat
  | k, 0 => k
  | k, fuel + 1 => if m ≤ k * k then k else ceilSqrtNatGo m (k + 1) fuel

/-- Ceiling of the square root of a natural number: the least `k` with
`m ≤ k * k`. -/
def ceilSqrtNat (m : Nat) : Nat := ceilSqrtNatGo m 0 m

/-- Ceiling of the square root of the rational `num / den`, computed exactly:
`⌈√(num/den)⌉ = ⌈√(⌈num/den⌉)⌉` because squares of naturals are integers.
This embeds `int(math.ceil(math.sqrt(num / den)))` from source line 494. -/
def ceilSqrtRat (num den : Nat) : Nat := ceilSqrtNat (ceilDiv num den)

structure Layout where
  cols : Nat
  rows : Nat
  cellW : Nat
  cellH : Nat
deriving DecidableEq

/-- Embeds the layout computation of `build_collages_for_33T`
(source lines 494–498): clamped ceil-sqrt column count, ceiling-division row
count, floor-division cell sizes. -/
def solveLayout (n base_w base_h : Nat) : Layout :=
  let cols := max 3 (min 12 (ceilSqrtRat (n * base_w) base_h))
  let rows := ceilDiv n cols
  { cols := cols
    rows := rows
    cellW := base_w / cols
    cellH := base_h / rows }

/-! ### Spec-side layout formulation (for the refinement claim C2)

The spec's words: `cols = clamp(ceil(sqrt(n * canvas_w / canvas_h)), min=3,
max=12)`; `rows = ceil(n / cols)`; integer-division cells.  Written
independently: `clamp` as min-of-max, and the two ceilings as least naturals
satisfying their defining inequalities (`Nat.find`). -/

theorem le_self_sq_mul (num den : Nat) (hden : 0 < den) :
    num ≤ num * num * den := by
  rcases Nat.eq_zero_or_pos num with h | h
  · simp [h]
  · calc num = num * 1 * 1 := by ring
      _ ≤ num * num * den := Nat.mul_le_mul (Nat.mul_le_mul_left num h) hden

theorem le_self_mul_of_pos (a b : Nat) (hb : 0 < b) : a ≤ a * b := by
  calc a = a * 1 := by ring
    _ ≤ a * b := Nat.mul_le_mul_left a hb

/-- Spec-side `ceil(sqrt(num/den))`: the least `k` with `k² ≥ num/den`,
i.e. the least `k` with `num ≤ k * k * den`. -/
def ceilSqrtRatSpec (num den : Nat) (hden : 0 < den) : Nat :=
  Nat.find (p := fun k => num ≤ k * k * den)
    ⟨num, le_self_sq_mul num den hden⟩

/-- Spec-side `ceil(a / b)`: the least `r` with `a ≤ r * b`. -/
def ceilDivSpec (a b : Nat) (hb : 0 < b) : Nat :=
  Nat.find (p := fun r => a ≤ r * b) ⟨a, le_self_mul_of_pos a b hb⟩

/-- The spec's layout formula, written from the spec's words
(`clamp(x, min=3, max=12)` as `min 12 (max 3 x)`). -/
def solveLayoutSpec (n base_w base_h : Nat) (hh : 0 < base_h) : Layout :=
  let cols := min 12 (max 3 (ceilSqrtRatSpec (n * base_w) base_h hh))
  let rows := ceilDivSpec n cols (by omega)
  { cols := cols
    rows := rows
    cellW := base_w / cols
    cellH := base_h / rows }

/-! ### Arithmetic facts about the two ceiling operations -/

theorem ceilDiv_bounds (num den : Nat) (hden : 0 < den) :
    num ≤ ceilDiv num den * den ∧ ceilDiv num den * den < num + den := by
  unfold ceilDiv
  have h1 := Nat.div_add_mod (num + den - 1) den
  have h2 := Nat.mod_lt (num + den - 1) hden
  have hk : num + den - 1 + 1 = num + den := by omega
  set q := (num + den - 1) / den with hq
  set r := (num + den - 1) % den with hr
  constructor
  · nlinarith
  · nlinarith

theorem ceilDiv_eq_spec (a b : Nat) (hb : 0 < b) :
    ceilDiv a b = ceilDivSpec a b hb := by
  unfold ceilDivSpec
  symm
  rw [Nat.find_eq_iff]
  obtain ⟨hlo, hhi⟩ := ceilDiv_bounds a b hb
  refine ⟨hlo, ?_⟩
  intro r hr hle
  have : (r + 1) * b ≤ ceilDiv a b * b := Nat.mul_le_mul_right b hr
  nlinarith

theorem ceilSqrtNatGo_spec (m fuel : Nat) : ∀ k,
    m ≤ (k + fuel) * (k + fuel) → (∀ j, j < k → j * j < m) →
    m ≤ ceilSqrtNatGo m k fuel * ceilSqrtNatGo m k fuel ∧
      ∀ j, j < ceilSqrtNatGo m k fuel → j * j < m := by
  induction fuel with
  | zero =>
    intro k hbound hmin
    simp only [ceilSqrtNatGo]
    exact ⟨by simpa using hbound, hmin⟩
  | succ fuel ih =>
    intro k hbound hmin
    simp only [ceilSqrtNatGo]
    by_cases hk : m ≤ k * k
    · rw [if_pos hk]
      exact ⟨hk, hmin⟩
    · rw [if_neg hk]
      apply ih
      · have heq : k + 1 + fuel = k + (fuel + 1) := by omega
        rw [heq]
        exact hbound
      · intro j hj
        have hcase : j < k ∨ j = k := by omega
        rcases hcase with h | h
        · exact hmin j h
        · subst h
          omega

theorem le_self_sq (m : Nat) : m ≤ m * m := by
  rcases Nat.eq_zero_or_pos m with h | h
  · simp [h]
  · exact Nat.le_mul_of_pos_left m h

theorem ceilSqrtNat_spec (m : Nat) :
    m ≤ ceilSqrtNat m * ceilSqrtNat m ∧ ∀ j, j < ceilSqrtNat m → j * j < m := by
  unfold ceilSqrtNat
  apply ceilSqrtNatGo_spec
  · simpa using le_self_sq m
  · intro j hj
    omega

theorem ceilDiv_le_iff (num den t : Nat) (hden : 0 < den) :
    ceilDiv num den ≤ t ↔ num ≤ t * den := by
  obtain ⟨hlo, hhi⟩ := ceilDiv_bounds num den hden
  constructor
  · intro h
    exact le_trans hlo (Nat.mul_le_mul_right den h)
  · intro h
    by_contra hc
    push_neg at hc
    have hmul : (t + 1) * den ≤ ceilDiv num den * den :=
      Nat.mul_le_mul_right den hc
    nlinarith

theorem ceilSqrtRat_eq_spec (num den : Nat) (hden : 0 < den) :
    ceilSqrtRat num den = ceilSqrtRatSpec num den hden := by
  unfold ceilSqrtRatSpec ceilSqrtRat
  symm
  rw [Nat.find_eq_iff]
  obtain ⟨h1, h2⟩ := ceilSqrtNat_spec (ceilDiv num den)
  constructor
  · rw [← ceilDiv_le_iff num den _ hden]
    exact h1
  · intro j hj hle
    have hcd : ceilDiv num den ≤ j * j :=
      (ceilDiv_le_iff num den (j * j) hden).mpr hle
    have := h2 j hj
    omega

/-- helper: the clamp written the source's way equals the clamp written the
spec's way. -/
theorem clamp_comm (x : Nat) : max 3 (min 12 x) = min 12 (max 3 x) := by
  omega

/-- C2: for every `n ≥ 1` and positive canvas dimensions, the layout computed
by `build_collages_for_33T` (embedded as `solveLayout`) coincides with the
spec's formula `cols = clamp(ceil(sqrt(n·w/h)), 3, 12)`, `rows = ceil(n/cols)`,
`cell_w = ⌊w/cols⌋`, `cell_h = ⌊h/rows⌋` (embedded independently as
`solveLayoutSpec`). -/
theorem solveLayout_eq_spec (n w h : Nat) (hn : 1 ≤ n) (hw : 1 ≤ w)
    (hh : 0 < h) : solveLayout n w h = solveLayoutSpec n w h hh := by
  unfold solveLayout solveLayoutSpec
  have hcols : max 3 (min 12 (ceilSqrtRat (n * w) h))
      = min 12 (max 3 (ceilSqrtRatSpec (n * w) h hh)) := by
    rw [ceilSqrtRat_eq_spec (n * w) h hh, clamp_comm]
  simp only [hcols]
  have hrows : ceilDiv n (min 12 (max 3 (ceilSqrtRatSpec (n * w) h hh)))
      = ceilDivSpec n (min 12 (max 3 (ceilSqrtRatSpec (n * w) h hh))) (by omega) := by
    exact ceilDiv_eq_spec _ _ (by omega)
  rw [hrows]

/-- C2 witness: the equality instantiated at `n = 5`, canvas `1200 × 630`. -/
theorem solveLayout_eq_spec_witness :
    (1 ≤ 5 ∧ 1 ≤ 1200 ∧ 0 < 630) ∧
      solveLayout 5 1200 630 = solveLayoutSpec 5 1200 630 (by decide) :=
  ⟨by decide, solveLayout_eq_spec 5 1200 630 (by decide) (by decide) (by decide)⟩

/-- C3 counterexample: the worked example in the spec is wrong about the code:
`solve_layout(5, 1200, 630)` does not yield `cols = 3` (together with
`rows = 2`); the column count is actually 4. -/
theorem solveLayout_worked_example_cex :
    ¬ ((solveLayout 5 1200 630).cols = 3 ∧ (solveLayout 5 1200 630).rows = 2) := by
  decide

/-- C3 (amended): the layout solver applied to `n = 5` thumbnails and a
`1200 × 630` canvas yields `cols = 4` (since `ceil(sqrt(5·1200/630)) = 4`,
already within `[3,12]`) and `rows = ceil(5/4) = 2`. -/
theorem solveLayout_worked_example :
    (solveLayout 5 1200 630).cols = 4 ∧ (solveLayout 5 1200 630).rows = 2 := by
  decide

/-- C4: for every `n ≥ 1` and positive canvas dimensions, the layout satisfies
`3 ≤ cols ≤ 12`, `rows ≥ 1`, `cols · cell_w ≤ canvas_w` and
`rows · cell_h ≤ canvas_h`. -/
theorem solveLayout_bounds (n w h : Nat) (hn : 1 ≤ n) (hw : 1 ≤ w)
    (hh : 1 ≤ h) :
    3 ≤ (solveLayout n w h).cols ∧ (solveLayout n w h).cols ≤ 12 ∧
    1 ≤ (solveLayout n w h).rows ∧
    (solveLayout n w h).cols * (solveLayout n w h).cellW ≤ w ∧
    (solveLayout n w h).rows * (solveLayout n w h).cellH ≤ h := by
  unfold solveLayout
  simp only
  set x := ceilSqrtRat (n * w) h with hx
  have hcols3 : 3 ≤ max 3 (min 12 x) := by omega
  have hcols12 : max 3 (min 12 x) ≤ 12 := by omega
  refine ⟨hcols3, hcols12, ?_, ?_, ?_⟩
  · -- rows ≥ 1: ceilDiv n cols ≥ 1 because n ≥ 1
    unfold ceilDiv
    rw [Nat.one_le_div_iff (by omega)]
    omega
  · -- cols * (w / cols) ≤ w
    rw [Nat.mul_comm]
    exact Nat.div_mul_le_self w _
  · -- rows * (h / rows) ≤ h
    rw [Nat.mul_comm]
    exact Nat.div_mul_le_self h _

/-- C4 witness: the bounds instantiated at `n = 5`, canvas `1200 × 630`. -/
theorem solveLayout_bounds_witness :
    (1 ≤ 5 ∧ 1 ≤ 1200 ∧ 1 ≤ 630) ∧
      (3 ≤ (solveLayout 5 1200 630).cols ∧ (solveLayout 5 1200 630).cols ≤ 12 ∧
       1 ≤ (solveLayout 5 1200 630).rows ∧
       (solveLayout 5 1200 630).cols * (solveLayout 5 1200 630).cellW ≤ 1200 ∧
       (solveLayout 5 1200 630).rows * (solveLayout 5 1200 630).cellH ≤ 630) :=
  ⟨by decide, solveLayout_bounds 5 1200 630 (by decide) (by decide) (by decide)⟩

/-! ## Envelope protocol (source lines 839–866 `encrypt_html_aes_gcm`,
lines 1011–1061 embedded client `unlockWithPassword`, lines 1306–1313 `main`)

The source calls `cryptography`'s PBKDF2HMAC and AESGCM and the browser's Web
Crypto API; those primitives are library code, not part of this repository,
so they are modelled below as executable deterministic functions with the
interface shape the spec fixes (32-byte key; ciphertext = body plus appended
16-byte authentication tag; tag checked before any plaintext is returned).
Bytes are naturals; `os.urandom` outputs (salt, iv) are explicit inputs. -/

/-- Models `str.encode("utf-8")` at the level of code points. -/
def strBytes (s : String) : List Nat := s.toList.map Char.toNat

/-- Deterministic mixing of a byte list into a single natural (a stand-in for
the compression performed inside the modelled primitives). -/
def mixBytes (bs : List Nat) : Nat :=
  bs.foldl (fun a b => (a * 257 + b + 1) % 65521) 7

/-- Modelled from the spec: `derive_key(passphrase, salt, iterations)` —
PBKDF2-HMAC-SHA256 with 32-byte output.  The real KDF lives in the
`cryptography` library; what the claims need is a deterministic 32-byte
derivation from passphrase, salt and iteration count, modelled here. -/
def pbkdf2HmacSha256 (password salt : List Nat) (iterations : Nat) :
    List Nat :=
  (List.range 32).map fun i =>
    (mixBytes password * 3 + mixBytes salt * 7 + iterations * 31 + i * 131)
      % 256

/-- Modelled from the spec: the AES-CTR keystream inside AES-GCM (a
deterministic byte stream from key and 96-bit nonce; the AES block cipher
itself is library code). -/
def gcmKeystream (key nonce : List Nat) (len : Nat) : List Nat :=
  (List.range len).map fun i =>
    (mixBytes key * (i + 2) + mixBytes nonce * (2 * i + 3) + i * i) % 256

/-- Modelled from the spec: the 16-byte GCM authentication tag over the
ciphertext (a deterministic function of key, nonce and ciphertext). -/
def gcmTag (key nonce ct : List Nat) : List Nat :=
  (List.range 16).map fun i =>
    (mixBytes key * 5 + mixBytes nonce * 11 + mixBytes ct * 13 + i) % 256

/-- Bytewise XOR of two byte lists. -/
def xorBytes (a b : List Nat) : List Nat :=
  List.zipWith (fun x y => x ^^^ y) a b

/-- Modelled from the spec: `seal` — AES-GCM encryption; the returned
ciphertext is the encrypted body with the authentication tag appended, per
standard AEAD convention (`AESGCM.encrypt` in the source). -/
def aesGcmEncrypt (key nonce pt : List Nat) : List Nat :=
  let ct := xorBytes pt (gcmKeystream key nonce pt.length)
  ct ++ gcmTag key nonce ct

/-- Modelled from the spec: `open` — AES-GCM decryption; verifies the
authentication tag before returning any plaintext, returning `none`
(AuthenticationFailure) on mismatch (`crypto.subtle.decrypt` client-side). -/
def aesGcmDecrypt (key nonce data : List Nat) : Option (List Nat) :=
  if data.length < 16 then none
  else if data.drop (data.length - 16)
      = gcmTag key nonce (data.take (data.length - 16)) then
    some (xorBytes (data.take (data.length - 16))
      (gcmKeystream key nonce (data.take (data.length - 16)).length))
  else none

structure Envelope where
  salt : List Nat
  iv : List Nat
  ciphertext : List Nat
  iterations : Nat
deriving DecidableEq

/-- The source's default PBKDF2 iteration count. -/
def defaultIterations : Nat := 100000

/-- Embeds `encrypt_html_aes_gcm` (source lines 839–866): derive a 32-byte
key from the password over a fresh 16-byte salt and the iteration count, then
AES-GCM-encrypt the UTF-8 payload under a fresh 12-byte iv.  The `os.urandom`
salt and iv are explicit arguments; the base64 re-encoding of the fields is
omitted (an injective serialization). -/
def encrypt_html_aes_gcm (html password : String) (iterations : Nat)
    (salt iv : List Nat) : Envelope :=
  let key := pbkdf2HmacSha256 (strBytes password) salt iterations
  { salt := salt
    iv := iv
    ciphertext := aesGcmEncrypt key iv (strBytes html)
    iterations := iterations }

/-- Embeds the client-side `unlockWithPassword` (source lines 1011–1061):
re-derive the key with PBKDF2-HMAC-SHA256 from the entered password and the
envelope's salt and iteration count, then AES-GCM-decrypt the envelope's
ciphertext with the envelope's nonce; `none` is the "wrong password" path. -/
def unlockWithPassword (env : Envelope) (pw : String) : Option (List Nat) :=
  let key := pbkdf2HmacSha256 (strBytes pw) env.salt env.iterations
  aesGcmDecrypt key env.iv env.ciphertext

theorem xorBytes_length (a b : List Nat) :
    (xorBytes a b).length = min a.length b.length := by
  simp [xorBytes]

theorem xorBytes_cancel : ∀ (pt ks : List Nat), ks.length = pt.length →
    xorBytes (xorBytes pt ks) ks = pt
  | [], [], _ => rfl
  | [], _ :: _, h => by simp at h
  | _ :: _, [], h => by simp at h
  | p :: pt, k :: ks, h => by
    have h2 : ks.length = pt.length := by
      simp only [List.length_cons] at h
      omega
    show (p ^^^ k ^^^ k) :: xorBytes (xorBytes pt ks) ks = p :: pt
    rw [xorBytes_cancel pt ks h2]
    simp [Nat.xor_assoc]

theorem gcmKeystream_length (key nonce : List Nat) (len : Nat) :
    (gcmKeystream key nonce len).length = len := by
  simp [gcmKeystream]

/-- The AEAD round-trip at the cipher level: decrypting an encryption with
the same key and nonce verifies the tag and recovers the plaintext. -/
theorem aesGcm_roundtrip (key nonce pt : List Nat) :
    aesGcmDecrypt key nonce (aesGcmEncrypt key nonce pt) = some pt := by
  have hkslen := gcmKeystream_length key nonce pt.length
  have hctlen : (xorBytes pt (gcmKeystream key nonce pt.length)).length
      = pt.length := by
    rw [xorBytes_length, hkslen]
    omega
  set ct := xorBytes pt (gcmKeystream key nonce pt.length) with hct
  have henc : aesGcmEncrypt key nonce pt = ct ++ gcmTag key nonce ct := rfl
  rw [henc]
  unfold aesGcmDecrypt
  have hdlen : (ct ++ gcmTag key nonce ct).length = pt.length + 16 := by
    simp [gcmTag, hctlen]
  rw [hdlen]
  rw [if_neg (by omega)]
  have h16 : pt.length + 16 - 16 = pt.length := by omega
  rw [h16, ← hctlen, List.take_left, List.drop_left, if_pos rfl, hctlen]
  exact congrArg some (xorBytes_cancel pt _ hkslen)

/-- C1: round-trip — sealing a payload under the key derived from a non-empty
passphrase (PBKDF2-HMAC-SHA256 over the envelope's salt and iteration count,
32-byte key) and opening the result with the same derived key and the
envelope's nonce returns exactly the payload bytes. -/
theorem envelope_roundtrip (P W : String) (salt iv : List Nat)
    (iters : Nat) (hW : W ≠ "") :
    unlockWithPassword (encrypt_html_aes_gcm P W iters salt iv) W
      = some (strBytes P) := by
  unfold unlockWithPassword encrypt_html_aes_gcm
  exact aesGcm_roundtrip _ _ _

/-- C1 witness: the round-trip at a concrete payload, password, salt and iv,
with the source's default iteration count. -/
theorem envelope_roundtrip_witness :
    ("pw" : String) ≠ "" ∧
      unlockWithPassword
          (encrypt_html_aes_gcm "hello" "pw" 100000 [1, 2, 3] [4, 5]) "pw"
        = some (strBytes "hello") :=
  ⟨by decide, envelope_roundtrip "hello" "pw" [1, 2, 3] [4, 5] 100000
    (by decide)⟩

/-- Embeds main's AES-lock branch (source lines 1306–1313): an empty password
prints an error and `sys.exit(1)`s before `make_aes_protected_wrapper` — and
hence before the KDF or the cipher — is reached.  The second component counts
the KDF/cipher invocations performed on the taken path. -/
def mainAesLockStep (pw html : String) (salt iv : List Nat) :
    Option Envelope × Nat :=
  if pw = "" then (none, 0)
  else (some (encrypt_html_aes_gcm html pw defaultIterations salt iv), 1)

/-- C5: the empty passphrase is rejected up front: the envelope-creation path
halts (no envelope) having performed zero KDF/cipher invocations. -/
theorem emptyPassword_rejected (html : String) (salt iv : List Nat) :
    mainAesLockStep "" html salt iv = (none, 0) := by
  simp [mainAesLockStep]

/-! ## Collage compositor (source lines 428–449 `download_image_to_pil`,
lines 452–543 `build_collages_for_33T`)

Images are width × height grids of pixel values (one natural per pixel —
packed RGB).  PIL primitives the source calls but does not implement
(LANCZOS resampling, Gaussian blur) are modelled as executable deterministic
functions marked `Modelled from the spec:`.  `download_image_to_pil` performs
network/file I/O and is passed in as a loader function `fetch` returning
`none` for an unreadable or missing source. -/

structure Img where
  w : Nat
  h : Nat
  pix : List (List Nat)
deriving DecidableEq

/-- Pixel read at `(x, y)`, defaulting to 0 outside the stored grid. -/
def Img.getPix (im : Img) (x y : Nat) : Nat := (im.pix.getD y []).getD x 0

/-- Embeds `Image.new("RGB", (w, h), color)`: a solid background canvas
(the source uses black, `(0, 0, 0)`). -/
def imgNew (w h color : Nat) : Img :=
  { w := w, h := h, pix := List.replicate h (List.replicate w color) }

/-- Modelled from the spec: `im.resize((nw, nh), Image.LANCZOS)` — the LANCZOS
resampler is PIL library code; modelled as deterministic point sampling to the
requested `nw × nh` size. -/
def Img.resize (im : Img) (nw nh : Nat) : Img :=
  { w := nw
    h := nh
    pix := (List.range nh).map fun y => (List.range nw).map fun x =>
      im.getPix (x * im.w / nw) (y * im.h / nh) }

/-- Embeds `collage.paste(resized, (x, y))`: overwrite the rectangle of
`im`'s size at offset `(px, py)` of the canvas. -/
def Img.paste (canvas im : Img) (px py : Nat) : Img :=
  { w := canvas.w
    h := canvas.h
    pix := (List.range canvas.h).map fun y => (List.range canvas.w).map fun x =>
      if px ≤ x ∧ x < px + im.w ∧ py ≤ y ∧ y < py + im.h then
        im.getPix (x - px) (y - py)
      else canvas.getPix x y }

/-- Modelled from the spec: `ImageFilter.GaussianBlur(radius)` applied at one
pixel — PIL library code; modelled as a deterministic windowed average of
radius `radius` (pure, no randomness), per the degradation-filter contract. -/
def blurAt (radius : Nat) (im : Img) (x y : Nat) : Nat :=
  let d := 2 * radius + 1
  (((List.range d).map fun dy => ((List.range d).map fun dx =>
    im.getPix (x + dx - radius) (y + dy - radius)).sum).sum) / (d * d)

/-- Modelled from the spec: the degradation filter
`degrade(composite, radius)` = `composite.filter(ImageFilter.GaussianBlur(radius))`
(source line 537, radius 9). -/
def gaussianBlur (radius : Nat) (im : Img) : Img :=
  { w := im.w
    h := im.h
    pix := (List.range im.h).map fun y => (List.range im.w).map fun x =>
      blurAt radius im x y }

/-- Embeds one iteration body of the placement loop (source lines 514–526):
aspect-preserving fit of the image into its `cell_w × cell_h` cell (the float
ratio comparison `im_ratio > cell_ratio` done exactly as
`cell_w * im.h < im.w * cell_h`, the float truncations as floor divisions),
centering, and paste at row `idx / cols`, column `idx % cols`. -/
def placeOne (canvas : Img) (cols cell_w cell_h idx : Nat) (im : Img) : Img :=
  let nwh :=
    if cell_w * im.h < im.w * cell_h then
      (cell_w, cell_w * im.h / im.w)
    else
      (cell_h * im.w / im.h, cell_h)
  let resized := im.resize nwh.1 nwh.2
  let x := (idx % cols) * cell_w + (cell_w - nwh.1) / 2
  let y := (idx / cols) * cell_h + (cell_h - nwh.2) / 2
  canvas.paste resized x y

/-- Embeds the placement loop with its capacity check (source lines 508–512):
`r = idx // cols; if r >= rows: break`. -/
def pasteLoop (cols rows cell_w cell_h : Nat) : Img → Nat → List Img → Img
  | canvas, _, [] => canvas
  | canvas, idx, im :: rest =>
    if rows ≤ idx / cols then canvas
    else pasteLoop cols rows cell_w cell_h
      (placeOne canvas cols cell_w cell_h idx im) (idx + 1) rest

/-- The same loop without the capacity check: every image pasted in row-major
order. -/
def pasteAll (cols cell_w cell_h : Nat) : Img → Nat → List Img → Img
  | canvas, _, [] => canvas
  | canvas, idx, im :: rest =>
    pasteAll cols cell_w cell_h
      (placeOne canvas cols cell_w cell_h idx im) (idx + 1) rest

/-- Embeds the source-collection loop (source lines 471–476): walk the tiles,
keep each truthy `thumb_src_collage`, and stop as soon as `max_cells` sources
have been collected.  The `count` argument is the number collected so far. -/
def collectSrcs (maxCells : Int) : List String → Nat → List String
  | [], _ => []
  | t :: rest, count =>
    if t = "" then collectSrcs maxCells rest count
    else if maxCells ≤ (count : Int) + 1 then [t]
    else t :: collectSrcs maxCells rest (count + 1)

/-- Embeds `build_collages_for_33T` (source lines 452–543).  `tiles` is the
list of the tiles' `thumb_src_collage` fields (empty string standing for a
falsy one); `fetch` models `download_image_to_pil` (`none` = unreadable or
missing).  The real collage's PNG/base64 data-URI serialization and the
cover's PNG file write are injective encodings of the returned images and are
omitted; the `(real data URI, cover path)` pair is returned as the pair of
the two images, `(none, none)` on each early exit. -/
def build_collages_for_33T (fetch : String → Option Img) (tiles : List String)
    (maxCells : Int) (base_w base_h : Nat) : Option Img × Option Img :=
  if maxCells ≤ 0 then (none, none)
  else
    let srcs := collectSrcs maxCells tiles 0
    if srcs = [] then (none, none)
    else
      let imgs := srcs.filterMap fetch
      if imgs = [] then (none, none)
      else
        let L := solveLayout imgs.length base_w base_h
        let collage := pasteLoop L.cols L.rows L.cellW L.cellH
          (imgNew base_w base_h 0) 0 imgs
        (some collage, some (gaussianBlur 9 collage))

/-- C6: degenerate compositing — when no thumbnail source is available or
none loads, the builder early-exits with `(none, none)`: no composite and no
cover are produced (no canvas at all). -/
theorem degenerate_skip (fetch : String → Option Img) (tiles : List String)
    (maxCells : Int) (w h : Nat)
    (hempty : collectSrcs maxCells tiles 0 = []
      ∨ (collectSrcs maxCells tiles 0).filterMap fetch = []) :
    build_collages_for_33T fetch tiles maxCells w h = (none, none) := by
  unfold build_collages_for_33T
  by_cases hmc : maxCells ≤ 0
  · rw [if_pos hmc]
  · rw [if_neg hmc]
    rcases hempty with h1 | h1
    · simp [h1]
    · by_cases h2 : collectSrcs maxCells tiles 0 = []
      · simp [h2]
      · rw [List.filterMap_eq_nil_iff] at h1
        simp [h2]
        exact h1

/-- A loader that fails on every source (all thumbnails unreadable). -/
def fetchNone : String → Option Img := fun _ => none

/-- C6 witness: one available source whose download fails — the builder
returns `(none, none)`. -/
theorem degenerate_skip_witness :
    (collectSrcs 1 ["a"] 0 = []
        ∨ (collectSrcs 1 ["a"] 0).filterMap fetchNone = []) ∧
      build_collages_for_33T fetchNone ["a"] 1 1 1 = (none, none) :=
  ⟨by decide, degenerate_skip fetchNone ["a"] 1 1 1 (by decide)⟩

/-- C9: the builder's two outputs are coupled — it returns a real-collage
image exactly when it returns a cover image (both `none` on every early exit,
both `some` on the success path). -/
theorem outputs_coupled (fetch : String → Option Img) (tiles : List String)
    (maxCells : Int) (w h : Nat) :
    (build_collages_for_33T fetch tiles maxCells w h).1.isSome
      ↔ (build_collages_for_33T fetch tiles maxCells w h).2.isSome := by
  simp only [build_collages_for_33T]
  split_ifs <;> simp

theorem solveLayout_cols_pos (n w h : Nat) : 0 < (solveLayout n w h).cols := by
  simp only [solveLayout]
  omega

theorem solveLayout_capacity (n w h : Nat) :
    n ≤ (solveLayout n w h).rows * (solveLayout n w h).cols := by
  simp only [solveLayout]
  exact (ceilDiv_bounds n _ (by omega)).1

/-- helper: the loop with the capacity break agrees with the break-free loop
whenever the whole index range fits under `rows * cols`. -/
theorem pasteLoop_eq_pasteAll_go (cols rows cw ch : Nat) (hcols : 0 < cols) :
    ∀ (imgs : List Img) (canvas : Img) (idx : Nat),
      idx + imgs.length ≤ rows * cols →
      pasteLoop cols rows cw ch canvas idx imgs
        = pasteAll cols cw ch canvas idx imgs
  | [], _, _, _ => rfl
  | im :: rest, canvas, idx, hle => by
    have hidx : idx < rows * cols := by
      simp only [List.length_cons] at hle
      omega
    have hdiv : idx / cols < rows := by
      rw [Nat.div_lt_iff_lt_mul hcols]
      exact hidx
    simp only [pasteLoop, pasteAll]
    rw [if_neg (Nat.not_le.mpr hdiv)]
    exact pasteLoop_eq_pasteAll_go cols rows cw ch hcols rest _ (idx + 1)
      (by simp only [List.length_cons] at hle; omega)

/-- helper: the placement loop under the layout solved for the images' own
count never takes its break branch. -/
theorem pasteLoop_solveLayout_eq (imgs : List Img) (w h : Nat) (canvas : Img) :
    pasteLoop (solveLayout imgs.length w h).cols
        (solveLayout imgs.length w h).rows
        (solveLayout imgs.length w h).cellW
        (solveLayout imgs.length w h).cellH canvas 0 imgs
      = pasteAll (solveLayout imgs.length w h).cols
        (solveLayout imgs.length w h).cellW
        (solveLayout imgs.length w h).cellH canvas 0 imgs := by
  apply pasteLoop_eq_pasteAll_go _ _ _ _ (solveLayout_cols_pos imgs.length w h)
  simpa using solveLayout_capacity imgs.length w h

/-- C10: with `rows = ceil(n / cols)` computed from the count of successfully
loaded images, every index `idx < n` satisfies `idx / cols < rows`, so the
capacity-overflow `break` branch of the placement loop is unreachable: the
loop equals the break-free row-major pasting of every loaded image. -/
theorem break_unreachable (imgs : List Img) (w h : Nat) (canvas : Img) :
    pasteLoop (solveLayout imgs.length w h).cols
        (solveLayout imgs.length w h).rows
        (solveLayout imgs.length w h).cellW
        (solveLayout imgs.length w h).cellH canvas 0 imgs
      = pasteAll (solveLayout imgs.length w h).cols
        (solveLayout imgs.length w h).cellW
        (solveLayout imgs.length w h).cellH canvas 0 imgs :=
  pasteLoop_solveLayout_eq imgs w h canvas

/-- The break-free compositing of a list of successfully loaded images: solve
the layout for their count and paste each in row-major order onto the
background canvas. -/
def composeLoaded (imgs : List Img) (w h : Nat) : Img :=
  pasteAll (solveLayout imgs.length w h).cols
    (solveLayout imgs.length w h).cellW
    (solveLayout imgs.length w h).cellH (imgNew w h 0) 0 imgs

/-- A 1×1 solid test image. -/
def unitImg (color : Nat) : Img := { w := 1, h := 1, pix := [[color]] }

/-- Concrete loader for the C7 scenario: source "ok" loads a solid 1×1 image
of color 7; every other source (such as "bad") is unreadable. -/
def fetchC7 : String → Option Img :=
  fun s => if s = "ok" then some (unitImg 7) else none

/-- C7 counterexample: with thumbnail sources `["bad", "ok"]`, where the
first is unreadable and the second loads a solid color-7 image, on a 6×2
canvas the failed source's cell — cell 0, whose top-left pixel is `(0, 0)` —
is not left as the background color 0: the loaded image is shifted into it
(load failures are filtered out before the layout is computed). -/
theorem skip_leaves_cell_background_cex :
    ((build_collages_for_33T fetchC7 ["bad", "ok"] 9 6 2).1.map
        (fun im => Img.getPix im 0 0)) = some 7 ∧ (7 : Nat) ≠ 0 := by
  decide

/-- C7 (amended): a single unreadable or missing thumbnail is skipped
non-fatally and dropped before layout: whenever at least one collected source
loads, the builder completes and returns both outputs, and the composite is
exactly the break-free row-major pasting of the successfully loaded images
onto the background canvas (subsequent images shift forward into earlier
cells; trailing cells stay background); no single bad input aborts the run. -/
theorem skip_nonfatal (fetch : String → Option Img) (tiles : List String)
    (maxCells : Int) (w h : Nat) (hmc : 0 < maxCells)
    (himgs : (collectSrcs maxCells tiles 0).filterMap fetch ≠ []) :
    build_collages_for_33T fetch tiles maxCells w h
      = (some (composeLoaded
            ((collectSrcs maxCells tiles 0).filterMap fetch) w h),
         some (gaussianBlur 9 (composeLoaded
            ((collectSrcs maxCells tiles 0).filterMap fetch) w h))) := by
  have hsrcs : collectSrcs maxCells tiles 0 ≠ [] := by
    intro hcon
    apply himgs
    rw [hcon]
    rfl
  simp only [build_collages_for_33T]
  rw [if_neg (by omega), if_neg hsrcs, if_neg himgs]
  unfold composeLoaded
  rw [pasteLoop_solveLayout_eq]

/-- C7 witness: the amended statement at the concrete C7 scenario (first
source unreadable, second loads). -/
theorem skip_nonfatal_witness :
    ((0 : Int) < 9 ∧ (collectSrcs 9 ["bad", "ok"] 0).filterMap fetchC7 ≠ []) ∧
      build_collages_for_33T fetchC7 ["bad", "ok"] 9 6 2
        = (some (composeLoaded
              ((collectSrcs 9 ["bad", "ok"] 0).filterMap fetchC7) 6 2),
           some (gaussianBlur 9 (composeLoaded
              ((collectSrcs 9 ["bad", "ok"] 0).filterMap fetchC7) 6 2))) :=
  ⟨by decide, skip_nonfatal fetchC7 ["bad", "ok"] 9 6 2 (by decide) (by decide)⟩

/-- C8: the degradation filter is a pure function — applied twice to
identical composite and radius it produces identical (byte-identical once
encoded) covers; no randomness is involved. -/
theorem degrade_deterministic (c1 c2 : Img) (r1 r2 : Nat)
    (hc : c1 = c2) (hr : r1 = r2) :
    gaussianBlur r1 c1 = gaussianBlur r2 c2 := by
  rw [hc, hr]

/-- C8 witness: two applications at the source's radius 9 on a concrete
composite coincide. -/
theorem degrade_deterministic_witness :
    (unitImg 5 = unitImg 5 ∧ (9 : Nat) = 9) ∧
      gaussianBlur 9 (unitImg 5) = gaussianBlur 9 (unitImg 5) :=
  ⟨by decide, degrade_deterministic (unitImg 5) (unitImg 5) 9 9 rfl rfl⟩

end Pipeline33T
